import Mathlib

/-!
Shallow embedding of `pynamodb/settings.py`: the default settings table,
the `Settings` class (constructor and dynamic attribute lookup), and the
`SettingsMeta` metaclass implementing the thread-safe lazy singleton
(`Settings.default`) with double-checked locking.
-/

namespace PynamodbSettings

/-- A Python value as it occurs in the settings machinery: the module only
deals in `None`, booleans, integers and strings. -/
inductive Value where
  | none
  | bool (b : Bool)
  | int (i : Int)
  | str (s : String)
deriving DecidableEq, Repr

/-- Modelled from the spec: the setting-name constants are imported from
`pynamodb/constants.py`, which is not part of the provided sources; the
names are taken from the spec's table of recognized setting keys. -/
def CONNECT_TIMEOUT_SECONDS : String := "connect_timeout_seconds"

/-- Modelled from the spec: see `CONNECT_TIMEOUT_SECONDS`. -/
def READ_TIMEOUT_SECONDS : String := "read_timeout_seconds"

/-- Modelled from the spec: see `CONNECT_TIMEOUT_SECONDS`. -/
def MAX_RETRY_ATTEMPTS : String := "max_retry_attempts"

/-- Modelled from the spec: see `CONNECT_TIMEOUT_SECONDS`. -/
def MAX_POOL_CONNECTIONS : String := "max_pool_connections"

/-- Modelled from the spec: see `CONNECT_TIMEOUT_SECONDS`. -/
def BASE_BACKOFF_MS : String := "base_backoff_ms"

/-- Modelled from the spec: see `CONNECT_TIMEOUT_SECONDS`. -/
def REGION : String := "region"

/-- Modelled from the spec: see `CONNECT_TIMEOUT_SECONDS`. -/
def ALLOW_RATE_LIMITED_SCAN_WITHOUT_CONSUMED_CAPACITY : String :=
  "allow_rate_limited_scan_without_consumed_capacity"

/-- The hard-coded default table (`DEFAULT_SETTINGS` in `settings.py`). -/
def DEFAULT_SETTINGS : List (String × Value) :=
  [ (CONNECT_TIMEOUT_SECONDS, .int 15),
    (READ_TIMEOUT_SECONDS, .int 30),
    (MAX_RETRY_ATTEMPTS, .int 3),
    (MAX_POOL_CONNECTIONS, .int 10),
    (BASE_BACKOFF_MS, .int 25),
    (REGION, .str "us-east-1"),
    (ALLOW_RATE_LIMITED_SCAN_WITHOUT_CONSUMED_CAPACITY, .bool false) ]

/-- An override namespace: the module loaded from the override settings file,
viewed as its mapping from attribute names to values.  `hasattr ns key`
corresponds to `(lookup key ns).isSome` and `getattr ns key` to the looked-up
value. -/
abbrev Namespace := List (String × Value)

/-- A `Settings` instance: after construction it holds only the
`_override_settings` reference (the loaded override module, or `None` when
the override file does not exist). -/
structure Settings where
  override_settings : Option Namespace
deriving DecidableEq, Repr

/-- The tail of `Settings.__getattr__`: `if key in DEFAULT_SETTINGS: return
DEFAULT_SETTINGS[key]`, else `return None`. -/
def defaultLookup (key : String) : Value :=
  match List.lookup key DEFAULT_SETTINGS with
  | some v => v
  | Option.none => Value.none

/-- `Settings.__getattr__`: if the override module is present and has the
attribute, return it; otherwise fall back to `DEFAULT_SETTINGS`; otherwise
`None`.  (A loaded module object is always truthy in Python, so the guard
`self._override_settings and hasattr(...)` reduces to presence plus
`hasattr`.) -/
def Settings.getattr (self : Settings) (key : String) : Value :=
  match self.override_settings with
  | some ns =>
      match List.lookup key ns with
      | some v => v
      | Option.none => defaultLookup key
  | Option.none => defaultLookup key

/-- Log levels used by the module (only informational logging occurs). -/
inductive LogLevel where
  | info
deriving DecidableEq, Repr

/-- A log event: level plus the formatted message. -/
structure LogEvent where
  level : LogLevel
  msg : String
deriving DecidableEq, Repr

/-- The fixed default path used when neither the argument nor the
environment variable supplies one. -/
def GLOBAL_DEFAULT_SETTINGS_PATH : String := "/etc/pynamodb/global_default_settings.py"

/-- Path resolution at the top of `Settings.__init__`:
`if not settings_path: settings_path = getenv('PYNAMODB_CONFIG', default)`.
A `str`-typed `settings_path` is falsy exactly when it is `None` or the
empty string. -/
def resolveSettingsPath (settings_path : Option String) (env_pynamodb_config : Option String) :
    String :=
  match settings_path with
  | some p => if p = "" then env_pynamodb_config.getD GLOBAL_DEFAULT_SETTINGS_PATH else p
  | Option.none => env_pynamodb_config.getD GLOBAL_DEFAULT_SETTINGS_PATH

/-- The outcome of running `Settings.__init__`: the constructed instance,
the deprecation warnings emitted (identified by the obsolete attribute name
`m`; the emitted text is ``The `m` option is no longer supported``), and the
log events, in order. -/
structure InitResult where
  settings : Settings
  warnings : List String
  logs : List LogEvent
deriving DecidableEq, Repr

/-- `Settings.__init__`.  Parameters model the ambient world: `obsolete`
stands for `OBSOLETE_META_ATTRIBUTES` (imported from `pynamodb/constants.py`,
not part of the provided sources; the spec describes it as a fixed list of
legacy key names), `env` the value of `PYNAMODB_CONFIG`, `isfile` the
`os.path.isfile` check and `load_module` the namespace obtained by loading
the file at a given path. -/
def Settings.init (obsolete : List String) (settings_path : Option String)
    (env : Option String) (isfile : String → Bool) (load_module : String → Namespace) :
    InitResult :=
  let path := resolveSettingsPath settings_path env
  if isfile path then
    let ns := load_module path
    { settings := ⟨some ns⟩,
      warnings := obsolete.filter (fun m => (List.lookup m ns).isSome),
      logs := [⟨.info, "Override settings for pynamo available " ++ path⟩] }
  else
    { settings := ⟨Option.none⟩,
      warnings := [],
      logs := [⟨.info, "Override settings for pynamo not available " ++ path⟩,
               ⟨.info, "Using Default settings value"⟩] }

/-- A botocore `Session` as far as this module is concerned: an opaque
freshly-created object (`get_session` just returns `Session()`). -/
structure Session where
deriving DecidableEq, Repr

/-- `Settings.get_session`: returns a new botocore `Session`; reads and
writes nothing else. -/
def Settings.get_session (_self : Settings) : Session := ⟨⟩

/-- A Python value as assigned to `Settings.default`: either a `Settings`
instance or anything else (the `isinstance` check only distinguishes these
two cases; the payload string stands for the arbitrary non-`Settings`
object). -/
inductive PyValue where
  | settings (s : Settings)
  | nonSettings (descr : String)
deriving DecidableEq, Repr

/-- The state owned by `SettingsMeta` (set up in `SettingsMeta.__init__`):
the `_settings` singleton slot.  (The lock is only relevant to the
interleaving model below; sequential operations here model a single caller
running to completion.) -/
structure ModuleState where
  settings_slot : Option Settings
deriving DecidableEq, Repr

/-- `SettingsMeta.__setattr__` for the key `'default'` (the `replace`
operation): a non-`Settings` value raises `ValueError` before anything is
written; a `Settings` value is installed under the lock.  The first
component is the raised error message, if any; the second is the resulting
module state. -/
def SettingsMeta.setattrDefault (st : ModuleState) (value : PyValue) :
    Option String × ModuleState :=
  match value with
  | .settings s => (Option.none, { settings_slot := some s })
  | .nonSettings _ => (some "'default' must be an instance of Settings", st)

/-- `SettingsMeta.__getattr__` for the key `'default'` (the `current`
operation), run by a single caller to completion: return the existing
instance if the slot is set, otherwise construct `Settings()` (no
`settings_path` argument) and install it.  The ambient-world parameters are
those of `Settings.init`. -/
def SettingsMeta.getattrDefault (obsolete : List String) (env : Option String)
    (isfile : String → Bool) (load_module : String → Namespace) (st : ModuleState) :
    Settings × ModuleState :=
  match st.settings_slot with
  | some s => (s, st)
  | Option.none =>
      let s := (Settings.init obsolete Option.none env isfile load_module).settings
      (s, { settings_slot := some s })

/-- The operations a caller can perform against the module (used to state
the immutability invariant): an attribute read on the current instance, a
bare `current()`, a `replace(v)`, and `get_session()`. -/
inductive Op where
  | getSetting (key : String)
  | current
  | replaceDefault (v : PyValue)
  | getSession
deriving DecidableEq, Repr

/-- Observable result of an operation. -/
inductive OpResult where
  | value (v : Value)
  | instance_ (s : Settings)
  | session (s : Session)
  | raised (msg : String)
  | done
deriving DecidableEq, Repr

/-- Sequential semantics of one module operation.  `getSetting key` is
`Settings.default.__getattr__(key)`; `getSession` is
`Settings.default.get_session()`. -/
def runOp (obsolete : List String) (env : Option String) (isfile : String → Bool)
    (load_module : String → Namespace) (st : ModuleState) : Op → OpResult × ModuleState
  | .getSetting key =>
      let (s, st') := SettingsMeta.getattrDefault obsolete env isfile load_module st
      (.value (s.getattr key), st')
  | .current =>
      let (s, st') := SettingsMeta.getattrDefault obsolete env isfile load_module st
      (.instance_ s, st')
  | .replaceDefault v =>
      match SettingsMeta.setattrDefault st v with
      | (some msg, st') => (.raised msg, st')
      | (Option.none, st') => (.done, st')
  | .getSession =>
      let (s, st') := SettingsMeta.getattrDefault obsolete env isfile load_module st
      (.session s.get_session, st')

/-! ### Interleaving model of the lazy singleton

`SettingsMeta.__getattr__('default')` under concurrent first-time callers.
Each thread runs the code of lines 54-64 of `settings.py`; each shared-state
access (one attribute read or write, lock acquire/release) is one atomic
step, and steps of different threads interleave arbitrarily.  Constructed
`Settings` instances are identified by a fresh allocation id, so identity
equality of the returned instances is id equality. -/

namespace Singleton

/-- Program counter of one caller of `Settings.default`:
`readFast` = the lock-free read `settings = self._settings` plus the branch;
`acquiring` = blocked entering `with self._lock`;
`checkSlot` = the guarded re-check `if not self._settings`;
`constructing` = running `self._settings = Settings()` (construct + write);
`returning` = `return self._settings` (re-read, then the lock is released);
`done v` = returned the instance with id `v`. -/
inductive TState where
  | readFast
  | acquiring
  | checkSlot
  | constructing
  | returning
  | done (v : Nat)
deriving DecidableEq, Repr

/-- Shared state plus per-thread program counters for `n` callers.
`slot` is `SettingsMeta._settings` (an instance id, or `None`), `lock` is
`SettingsMeta._lock` (the id of the holding thread, or free), `nextId` the
allocator for fresh instance ids, `runs` counts completed runs of the
`Settings` constructor. -/
structure MState (n : Nat) where
  slot : Option Nat
  lock : Option (Fin n)
  nextId : Nat
  runs : Nat
  threads : Fin n → TState

/-- The uninitialized module: empty slot, free lock, no constructor runs,
all `n` callers about to enter `__getattr__`. -/
def initState (n : Nat) : MState n :=
  { slot := Option.none, lock := Option.none, nextId := 0, runs := 0,
    threads := fun _ => .readFast }

/-- One atomic step of thread `t` (a stutter when the thread is blocked on
the lock or already done). -/
def stepThread {n : Nat} (s : MState n) (t : Fin n) : MState n :=
  match s.threads t with
  | .readFast =>
      match s.slot with
      | some v => { s with threads := Function.update s.threads t (.done v) }
      | Option.none => { s with threads := Function.update s.threads t .acquiring }
  | .acquiring =>
      match s.lock with
      | Option.none =>
          { s with lock := some t, threads := Function.update s.threads t .checkSlot }
      | some _ => s
  | .checkSlot =>
      match s.slot with
      | Option.none => { s with threads := Function.update s.threads t .constructing }
      | some _ => { s with threads := Function.update s.threads t .returning }
  | .constructing =>
      { s with slot := some s.nextId, nextId := s.nextId + 1, runs := s.runs + 1,
               threads := Function.update s.threads t .returning }
  | .returning =>
      match s.slot with
      | some v =>
          { s with lock := Option.none, threads := Function.update s.threads t (.done v) }
      | Option.none => s
  | .done _ => s

/-- States reachable from the uninitialized module by any interleaving. -/
inductive Reachable {n : Nat} : MState n → Prop where
  | init : Reachable (initState n)
  | step {s : MState n} (t : Fin n) : Reachable s → Reachable (stepThread s t)

/-- Whether a thread at this program point is inside the `with self._lock`
region. -/
def holdsLock : TState → Bool
  | .checkSlot | .constructing | .returning => true
  | _ => false

/-- Inductive invariant of the machine: only the lock holder is inside the
critical section; a constructing thread sees an empty slot; the constructor
has run exactly as many times as the slot is filled; every finished thread
returned exactly the instance currently in the slot. -/
structure Inv {n : Nat} (s : MState n) : Prop where
  lockHolder : ∀ t : Fin n, holdsLock (s.threads t) = true → s.lock = some t
  constructingSlotFree : ∀ t : Fin n, s.threads t = .constructing → s.slot = Option.none
  runsSlot : (s.slot = Option.none ∧ s.runs = 0) ∨ (∃ v, s.slot = some v ∧ s.runs = 1)
  doneSlot : ∀ (t : Fin n) (v : Nat), s.threads t = .done v → s.slot = some v

theorem inv_init (n : Nat) : Inv (initState n) := by
  refine ⟨?_, ?_, ?_, ?_⟩
  · intro t h; simp [initState, holdsLock] at h
  · intro t h; simp [initState] at h
  · exact Or.inl ⟨rfl, rfl⟩
  · intro t v h; simp [initState] at h

theorem inv_step {n : Nat} {s : MState n} (h : Inv s) (t : Fin n) :
    Inv (stepThread s t) := by
  obtain ⟨hLock, hCons, hRuns, hDone⟩ := h
  cases hts : s.threads t with
  | readFast =>
    cases hslot : s.slot with
    | none =>
      have hr0 : s.runs = 0 := by
        rcases hRuns with ⟨_, h0⟩ | ⟨v, hv, _⟩
        · exact h0
        · rw [hslot] at hv; cases hv
      simp only [stepThread, hts, hslot]
      refine ⟨?_, fun u hu => rfl, Or.inl ⟨rfl, hr0⟩, ?_⟩
      · intro u hu
        dsimp only at hu
        rcases eq_or_ne u t with rfl | hne
        · rw [Function.update_same] at hu; simp [holdsLock] at hu
        · rw [Function.update_noteq hne] at hu; exact hLock u hu
      · intro u v hu
        dsimp only at hu
        rcases eq_or_ne u t with rfl | hne
        · rw [Function.update_same] at hu; cases hu
        · rw [Function.update_noteq hne] at hu
          exact hslot ▸ hDone u v hu
    | some v =>
      have hr1 : s.runs = 1 := by
        rcases hRuns with ⟨h0, _⟩ | ⟨w, _, h1⟩
        · rw [hslot] at h0; cases h0
        · exact h1
      simp only [stepThread, hts, hslot]
      refine ⟨?_, ?_, Or.inr ⟨v, rfl, hr1⟩, ?_⟩
      · intro u hu
        dsimp only at hu
        rcases eq_or_ne u t with rfl | hne
        · rw [Function.update_same] at hu; simp [holdsLock] at hu
        · rw [Function.update_noteq hne] at hu; exact hLock u hu
      · intro u hu
        dsimp only at hu
        rcases eq_or_ne u t with rfl | hne
        · rw [Function.update_same] at hu; cases hu
        · rw [Function.update_noteq hne] at hu
          have h2 := hCons u hu
          rw [hslot] at h2; cases h2
      · intro u w hu
        dsimp only at hu
        rcases eq_or_ne u t with rfl | hne
        · rw [Function.update_same] at hu
          injection hu with hvw
          exact hvw ▸ rfl
        · rw [Function.update_noteq hne] at hu
          exact hslot ▸ hDone u w hu
  | acquiring =>
    cases hlock : s.lock with
    | none =>
      simp only [stepThread, hts, hlock]
      refine ⟨?_, ?_, hRuns, ?_⟩
      · intro u hu
        dsimp only at hu
        rcases eq_or_ne u t with rfl | hne
        · rfl
        · rw [Function.update_noteq hne] at hu
          have h2 := hLock u hu
          rw [hlock] at h2; cases h2
      · intro u hu
        dsimp only at hu
        rcases eq_or_ne u t with rfl | hne
        · rw [Function.update_same] at hu; cases hu
        · rw [Function.update_noteq hne] at hu; exact hCons u hu
      · intro u v hu
        dsimp only at hu
        rcases eq_or_ne u t with rfl | hne
        · rw [Function.update_same] at hu; cases hu
        · rw [Function.update_noteq hne] at hu; exact hDone u v hu
    | some w =>
      simp only [stepThread, hts, hlock]
      exact ⟨hLock, hCons, hRuns, hDone⟩
  | checkSlot =>
    have hl : s.lock = some t := hLock t (by rw [hts]; rfl)
    cases hslot : s.slot with
    | none =>
      have hr0 : s.runs = 0 := by
        rcases hRuns with ⟨_, h0⟩ | ⟨v, hv, _⟩
        · exact h0
        · rw [hslot] at hv; cases hv
      simp only [stepThread, hts, hslot]
      refine ⟨?_, fun u hu => rfl, Or.inl ⟨rfl, hr0⟩, ?_⟩
      · intro u hu
        dsimp only at hu
        rcases eq_or_ne u t with rfl | hne
        · exact hl
        · rw [Function.update_noteq hne] at hu; exact hLock u hu
      · intro u v hu
        dsimp only at hu
        rcases eq_or_ne u t with rfl | hne
        · rw [Function.update_same] at hu; cases hu
        · rw [Function.update_noteq hne] at hu
          exact hslot ▸ hDone u v hu
    | some w =>
      have hr1 : s.runs = 1 := by
        rcases hRuns with ⟨h0, _⟩ | ⟨v, _, h1⟩
        · rw [hslot] at h0; cases h0
        · exact h1
      simp only [stepThread, hts, hslot]
      refine ⟨?_, ?_, Or.inr ⟨w, rfl, hr1⟩, ?_⟩
      · intro u hu
        dsimp only at hu
        rcases eq_or_ne u t with rfl | hne
        · exact hl
        · rw [Function.update_noteq hne] at hu; exact hLock u hu
      · intro u hu
        dsimp only at hu
        rcases eq_or_ne u t with rfl | hne
        · rw [Function.update_same] at hu; cases hu
        · rw [Function.update_noteq hne] at hu
          have h2 := hCons u hu
          rw [hslot] at h2; cases h2
      · intro u v hu
        dsimp only at hu
        rcases eq_or_ne u t with rfl | hne
        · rw [Function.update_same] at hu; cases hu
        · rw [Function.update_noteq hne] at hu
          exact hslot ▸ hDone u v hu
  | constructing =>
    have hl : s.lock = some t := hLock t (by rw [hts]; rfl)
    have hslot : s.slot = Option.none := hCons t hts
    have hruns0 : s.runs = 0 := by
      rcases hRuns with ⟨_, h0⟩ | ⟨v, hv, _⟩
      · exact h0
      · rw [hslot] at hv; cases hv
    simp only [stepThread, hts]
    refine ⟨?_, ?_, Or.inr ⟨s.nextId, rfl, by show s.runs + 1 = 1; rw [hruns0]⟩, ?_⟩
    · intro u hu
      dsimp only at hu
      rcases eq_or_ne u t with rfl | hne
      · exact hl
      · rw [Function.update_noteq hne] at hu; exact hLock u hu
    · intro u hu
      dsimp only at hu
      rcases eq_or_ne u t with rfl | hne
      · rw [Function.update_same] at hu; cases hu
      · rw [Function.update_noteq hne] at hu
        have h2 := hLock u (by rw [hu]; rfl)
        rw [hl] at h2
        injection h2 with h3
        exact absurd h3.symm hne
    · intro u v hu
      dsimp only at hu
      rcases eq_or_ne u t with rfl | hne
      · rw [Function.update_same] at hu; cases hu
      · rw [Function.update_noteq hne] at hu
        have h2 := hDone u v hu
        rw [hslot] at h2; cases h2
  | returning =>
    have hl : s.lock = some t := hLock t (by rw [hts]; rfl)
    cases hslot : s.slot with
    | none =>
      simp only [stepThread, hts, hslot]
      exact ⟨hLock, hCons, hRuns, hDone⟩
    | some v =>
      have hr1 : s.runs = 1 := by
        rcases hRuns with ⟨h0, _⟩ | ⟨w, _, h1⟩
        · rw [hslot] at h0; cases h0
        · exact h1
      simp only [stepThread, hts, hslot]
      refine ⟨?_, ?_, Or.inr ⟨v, rfl, hr1⟩, ?_⟩
      · intro u hu
        dsimp only at hu
        rcases eq_or_ne u t with rfl | hne
        · rw [Function.update_same] at hu; simp [holdsLock] at hu
        · rw [Function.update_noteq hne] at hu
          have h2 := hLock u hu
          rw [hl] at h2
          injection h2 with h3
          exact absurd h3.symm hne
      · intro u hu
        dsimp only at hu
        rcases eq_or_ne u t with rfl | hne
        · rw [Function.update_same] at hu; cases hu
        · rw [Function.update_noteq hne] at hu
          have h2 := hCons u hu
          rw [hslot] at h2; cases h2
      · intro u w hu
        dsimp only at hu
        rcases eq_or_ne u t with rfl | hne
        · rw [Function.update_same] at hu
          injection hu with hvw
          exact hvw ▸ rfl
        · rw [Function.update_noteq hne] at hu
          exact hslot ▸ hDone u w hu
  | done w =>
    simp only [stepThread, hts]
    exact ⟨hLock, hCons, hRuns, hDone⟩

theorem reachable_inv {n : Nat} {s : MState n} (hr : Reachable s) : Inv s := by
  induction hr with
  | init => exact inv_init n
  | step t _ ih => exact inv_step ih t

end Singleton

/-- Lookup agreement transfers through the accessor: two override namespaces
that agree on a key produce the same `__getattr__` result for that key. -/
theorem getattr_congr_of_lookup_eq (ns ns2 : Namespace) (key : String)
    (h : List.lookup key ns = List.lookup key ns2) :
    Settings.getattr ⟨some ns⟩ key = Settings.getattr ⟨some ns2⟩ key := by
  simp only [Settings.getattr]
  rw [h]

/-- C1: with no override source present (the resolved override path is not an
existing file), `__getattr__` returns exactly the documented default for every
recognized key; in particular `region ↦ "us-east-1"` and
`max_retry_attempts ↦ 3`. -/
theorem no_override_get_returns_defaults
    (obsolete : List String) (sp env : Option String) (isfile : String → Bool)
    (load_module : String → Namespace)
    (hnofile : isfile (resolveSettingsPath sp env) = false) :
    (∀ key v, List.lookup key DEFAULT_SETTINGS = some v →
      (Settings.init obsolete sp env isfile load_module).settings.getattr key = v) ∧
    (Settings.init obsolete sp env isfile load_module).settings.getattr REGION =
      Value.str "us-east-1" ∧
    (Settings.init obsolete sp env isfile load_module).settings.getattr MAX_RETRY_ATTEMPTS =
      Value.int 3 := by
  have hset : (Settings.init obsolete sp env isfile load_module).settings = ⟨Option.none⟩ := by
    simp [Settings.init, hnofile]
  rw [hset]
  refine ⟨?_, by decide, by decide⟩
  intro key v hkv
  simp [Settings.getattr, defaultLookup, hkv]

/-- Witness for C1 at a concrete world with no override file. -/
theorem no_override_get_returns_defaults_witness :
    ((fun _ : String => false) (resolveSettingsPath Option.none Option.none) = false) ∧
    (Settings.init [] Option.none Option.none (fun _ => false)
      (fun _ => [])).settings.getattr REGION = Value.str "us-east-1" ∧
    (Settings.init [] Option.none Option.none (fun _ => false)
      (fun _ => [])).settings.getattr MAX_RETRY_ATTEMPTS = Value.int 3 :=
  ⟨rfl,
   (no_override_get_returns_defaults [] Option.none Option.none (fun _ => false)
      (fun _ => []) rfl).2.1,
   (no_override_get_returns_defaults [] Option.none Option.none (fun _ => false)
      (fun _ => []) rfl).2.2⟩

/-- C2: ordered lookup — a key defined by the present override namespace is
answered from the override (never the default); a key the override does not
define falls back to the default table when the default table defines it. -/
theorem override_precedes_defaults (ns : Namespace) (key : String) :
    (∀ v, List.lookup key ns = some v → Settings.getattr ⟨some ns⟩ key = v) ∧
    (List.lookup key ns = Option.none →
      ∀ d, List.lookup key DEFAULT_SETTINGS = some d →
        Settings.getattr ⟨some ns⟩ key = d) := by
  constructor
  · intro v hv
    simp [Settings.getattr, hv]
  · intro hnone d hd
    simp [Settings.getattr, hnone, defaultLookup, hd]

/-- Witness for C2: an override defining `region = "eu-west-1"` answers
`region` from the override while `max_retry_attempts` still falls back to 3. -/
theorem override_precedes_defaults_witness :
    Settings.getattr ⟨some [("region", Value.str "eu-west-1")]⟩ "region" =
      Value.str "eu-west-1" ∧
    Settings.getattr ⟨some [("region", Value.str "eu-west-1")]⟩ "max_retry_attempts" =
      Value.int 3 :=
  ⟨(override_precedes_defaults [("region", Value.str "eu-west-1")] "region").1
      (Value.str "eu-west-1") rfl,
   (override_precedes_defaults [("region", Value.str "eu-west-1")] "max_retry_attempts").2
      rfl (Value.int 3) (by decide)⟩

/-- C3: a key defined neither by the override source nor by the default table
yields `None`; `__getattr__` is total, so no error is raised. -/
theorem unknown_key_returns_none (o : Option Namespace) (key : String)
    (hov : ∀ ns, o = some ns → List.lookup key ns = Option.none)
    (hdef : List.lookup key DEFAULT_SETTINGS = Option.none) :
    Settings.getattr ⟨o⟩ key = Value.none := by
  cases o with
  | none => simp [Settings.getattr, defaultLookup, hdef]
  | some ns => simp [Settings.getattr, hov ns rfl, defaultLookup, hdef]

/-- Witness for C3 at a concrete unknown key. -/
theorem unknown_key_returns_none_witness :
    Settings.getattr ⟨some []⟩ "no_such_key" = Value.none :=
  unknown_key_returns_none (some []) "no_such_key"
    (fun ns h => by cases h; rfl) (by decide)

/-- C5: assigning a non-`Settings` value to `Settings.default` raises
`ValueError` synchronously and leaves the singleton slot untouched. -/
theorem replace_with_non_settings_raises (st : ModuleState) (descr : String) :
    SettingsMeta.setattrDefault st (.nonSettings descr) =
      (some "'default' must be an instance of Settings", st) := rfl

/-- C6 counterexample: a deprecated key present in a loaded override source is
warned about, but it is not ignored by the accessor — `__getattr__` on that
key returns the override's value (here `5`), whereas with the key absent it
returns `None`.  Its presence therefore does alter the accessor's behavior,
refuting the claim as stated. -/
theorem deprecated_key_presence_alters_accessor :
    (Settings.init ["session_cls"] Option.none Option.none (fun _ => true)
        (fun _ => [("session_cls", Value.int 5)])).warnings = ["session_cls"] ∧
    (Settings.init ["session_cls"] Option.none Option.none (fun _ => true)
        (fun _ => [("session_cls", Value.int 5)])).settings.getattr "session_cls" =
      Value.int 5 ∧
    (Settings.init ["session_cls"] Option.none Option.none (fun _ => true)
        (fun _ => [])).settings.getattr "session_cls" = Value.none ∧
    Value.int 5 ≠ Value.none := by
  refine ⟨?_, ?_, ?_, ?_⟩ <;> decide

/-- C6 amended: a deprecated key `m` present in a loaded override source is
warned about exactly once, and its presence does not alter the accessor's
behavior on any *other* key (the accessor answers every key `≠ m` exactly as
it would against any namespace agreeing off `m`); the deprecated key itself
is not ignored — the accessor returns its override value. -/
theorem deprecated_key_warned_other_keys_unaffected
    (obsolete : List String) (ns ns2 : Namespace) (m : String) (env : Option String)
    (hnodup : obsolete.Nodup) (hm : m ∈ obsolete)
    (hpresent : (List.lookup m ns).isSome = true)
    (hagree : ∀ key, key ≠ m → List.lookup key ns = List.lookup key ns2) :
    List.count m (Settings.init obsolete Option.none env (fun _ => true)
      (fun _ => ns)).warnings = 1 ∧
    (∀ key, key ≠ m →
      (Settings.init obsolete Option.none env (fun _ => true)
        (fun _ => ns)).settings.getattr key = Settings.getattr ⟨some ns2⟩ key) ∧
    (∀ v, List.lookup m ns = some v →
      (Settings.init obsolete Option.none env (fun _ => true)
        (fun _ => ns)).settings.getattr m = v) := by
  have hw : (Settings.init obsolete Option.none env (fun _ => true)
      (fun _ => ns)).warnings = obsolete.filter (fun x => (List.lookup x ns).isSome) := by
    simp [Settings.init]
  have hset : (Settings.init obsolete Option.none env (fun _ => true)
      (fun _ => ns)).settings = ⟨some ns⟩ := by
    simp [Settings.init]
  refine ⟨?_, ?_, ?_⟩
  · rw [hw, @List.count_filter String _ _ (fun x => (List.lookup x ns).isSome) m obsolete
      hpresent]
    exact List.count_eq_one_of_mem hnodup hm
  · intro key hk
    rw [hset]
    exact getattr_congr_of_lookup_eq ns ns2 key (hagree key hk)
  · intro v hv
    rw [hset]
    simp [Settings.getattr, hv]

/-- Witness for the amended C6 at a concrete override containing the
deprecated key `session_cls`. -/
theorem deprecated_key_warned_other_keys_unaffected_witness :
    List.count "session_cls" (Settings.init ["session_cls"] Option.none Option.none
      (fun _ => true) (fun _ => [("session_cls", Value.int 5)])).warnings = 1 ∧
    (Settings.init ["session_cls"] Option.none Option.none (fun _ => true)
      (fun _ => [("session_cls", Value.int 5)])).settings.getattr "session_cls" =
      Value.int 5 := by
  have h := deprecated_key_warned_other_keys_unaffected ["session_cls"]
    [("session_cls", Value.int 5)] [] "session_cls" Option.none
    (by decide) (by decide) (by decide)
    (fun key hk => by
      have hb : (key == "session_cls") = false := beq_eq_false_iff_ne.mpr hk
      simp [List.lookup, hb])
  exact ⟨h.1, h.2.2 (Value.int 5) rfl⟩

/-- C7: constructing `Settings` from an existing override file always
completes (the constructor is total and returns an `InitResult`), and emits
exactly one deprecation warning per obsolete key present in the loaded
namespace — and none for an obsolete key that is absent. -/
theorem init_emits_one_warning_per_deprecated_key
    (obsolete : List String) (ns : Namespace) (sp env : Option String)
    (isfile : String → Bool) (hnodup : obsolete.Nodup)
    (hfile : isfile (resolveSettingsPath sp env) = true) (m : String) (hm : m ∈ obsolete) :
    ((List.lookup m ns).isSome = true →
      List.count m (Settings.init obsolete sp env isfile (fun _ => ns)).warnings = 1) ∧
    ((List.lookup m ns).isSome = false →
      List.count m (Settings.init obsolete sp env isfile (fun _ => ns)).warnings = 0) := by
  have hw : (Settings.init obsolete sp env isfile (fun _ => ns)).warnings =
      obsolete.filter (fun x => (List.lookup x ns).isSome) := by
    simp [Settings.init, hfile]
  rw [hw]
  constructor
  · intro hp
    rw [@List.count_filter String _ _ (fun x => (List.lookup x ns).isSome) m obsolete hp]
    exact List.count_eq_one_of_mem hnodup hm
  · intro hp
    refine List.count_eq_zero_of_not_mem ?_
    intro hmem
    rw [List.mem_filter] at hmem
    rw [hp] at hmem
    cases hmem.2


/-- Witness for C7: one warning for the present obsolete key, none for the
absent one. -/
theorem init_emits_one_warning_per_deprecated_key_witness :
    List.count "session_cls"
      (Settings.init ["session_cls", "request_timeout_seconds"] Option.none Option.none
        (fun _ => true) (fun _ => [("session_cls", Value.int 5)])).warnings = 1 ∧
    List.count "request_timeout_seconds"
      (Settings.init ["session_cls", "request_timeout_seconds"] Option.none Option.none
        (fun _ => true) (fun _ => [("session_cls", Value.int 5)])).warnings = 0 :=
  ⟨(init_emits_one_warning_per_deprecated_key ["session_cls", "request_timeout_seconds"]
      [("session_cls", Value.int 5)] Option.none Option.none (fun _ => true)
      (by decide) rfl "session_cls" (by decide)).1 (by decide),
   (init_emits_one_warning_per_deprecated_key ["session_cls", "request_timeout_seconds"]
      [("session_cls", Value.int 5)] Option.none Option.none (fun _ => true)
      (by decide) rfl "request_timeout_seconds" (by decide)).2 (by decide)⟩

/-- C8: when the resolved override path is not an existing file, construction
succeeds with an absent override source, every lookup falls back to the
default table, and the outcome is logged at informational level. -/
theorem missing_override_file_falls_back_to_defaults
    (obsolete : List String) (sp env : Option String) (isfile : String → Bool)
    (load_module : String → Namespace)
    (hnofile : isfile (resolveSettingsPath sp env) = false) :
    (Settings.init obsolete sp env isfile load_module).settings.override_settings =
      Option.none ∧
    (∀ key, (Settings.init obsolete sp env isfile load_module).settings.getattr key =
      defaultLookup key) ∧
    (Settings.init obsolete sp env isfile load_module).logs =
      [⟨.info, "Override settings for pynamo not available " ++ resolveSettingsPath sp env⟩,
       ⟨.info, "Using Default settings value"⟩] ∧
    (∀ e ∈ (Settings.init obsolete sp env isfile load_module).logs,
      e.level = LogLevel.info) := by
  have hinit : Settings.init obsolete sp env isfile load_module =
      { settings := ⟨Option.none⟩, warnings := [],
        logs := [⟨.info, "Override settings for pynamo not available " ++
                    resolveSettingsPath sp env⟩,
                 ⟨.info, "Using Default settings value"⟩] } := by
    simp [Settings.init, hnofile]
  rw [hinit]
  refine ⟨rfl, fun key => rfl, rfl, ?_⟩
  intro e he
  simp only [List.mem_cons, List.not_mem_nil, or_false] at he
  rcases he with rfl | rfl <;> rfl

/-- Witness for C8 at a concrete world with no override file. -/
theorem missing_override_file_falls_back_to_defaults_witness :
    ((fun _ : String => false) (resolveSettingsPath Option.none Option.none) = false) ∧
    (Settings.init [] Option.none Option.none (fun _ => false)
      (fun _ => [])).settings.override_settings = Option.none ∧
    (Settings.init [] Option.none Option.none (fun _ => false)
      (fun _ => [])).settings.getattr "region" = defaultLookup "region" :=
  ⟨rfl,
   (missing_override_file_falls_back_to_defaults [] Option.none Option.none
      (fun _ => false) (fun _ => []) rfl).1,
   (missing_override_file_falls_back_to_defaults [] Option.none Option.none
      (fun _ => false) (fun _ => []) rfl).2.1 "region"⟩

/-- C9: once the singleton slot holds a constructed instance, every module
operation leaves that instance (and hence its `_override_settings` reference)
unchanged: setting reads and `get_session` return without touching state,
`current` returns the very same instance and state, a failed `replace` keeps
the state, and a successful `replace` installs the caller's instance as is;
a setting read is a pure function of the instance. -/
theorem operations_preserve_override_reference
    (obsolete : List String) (env : Option String) (isfile : String → Bool)
    (load_module : String → Namespace) (st : ModuleState) (s : Settings)
    (hs : st.settings_slot = some s) :
    (∀ key, runOp obsolete env isfile load_module st (.getSetting key) =
      (.value (s.getattr key), st)) ∧
    (runOp obsolete env isfile load_module st .current = (.instance_ s, st)) ∧
    (runOp obsolete env isfile load_module st .getSession =
      (.session s.get_session, st)) ∧
    (∀ d, (runOp obsolete env isfile load_module st
      (.replaceDefault (.nonSettings d))).2 = st) ∧
    (∀ v, (runOp obsolete env isfile load_module st
      (.replaceDefault (.settings v))).2 = { settings_slot := some v }) := by
  refine ⟨?_, ?_, ?_, ?_, ?_⟩ <;>
    simp [runOp, SettingsMeta.getattrDefault, SettingsMeta.setattrDefault, hs]

/-- Witness for C9 on a concrete initialized state. -/
theorem operations_preserve_override_reference_witness :
    (ModuleState.mk (some ⟨Option.none⟩)).settings_slot = some ⟨Option.none⟩ ∧
    runOp [] Option.none (fun _ => false) (fun _ => [])
      (ModuleState.mk (some ⟨Option.none⟩)) .current =
      (.instance_ ⟨Option.none⟩, ModuleState.mk (some ⟨Option.none⟩)) :=
  ⟨rfl,
   (operations_preserve_override_reference [] Option.none (fun _ => false) (fun _ => [])
      (ModuleState.mk (some ⟨Option.none⟩)) ⟨Option.none⟩ rfl).2.1⟩

/-- C10: a non-empty explicit `settings_path` argument is used as is — neither
`PYNAMODB_CONFIG` nor the fixed default path is consulted; an absent or empty
argument resolves through `PYNAMODB_CONFIG`, falling back to
`/etc/pynamodb/global_default_settings.py`. -/
theorem explicit_settings_path_skips_env (p : String) (hp : ¬(p = "")) :
    (∀ env env2 : Option String,
      resolveSettingsPath (some p) env = resolveSettingsPath (some p) env2) ∧
    (∀ env, resolveSettingsPath (some p) env = p) ∧
    (∀ env, resolveSettingsPath Option.none env =
      env.getD GLOBAL_DEFAULT_SETTINGS_PATH) ∧
    (∀ env, resolveSettingsPath (some "") env =
      env.getD GLOBAL_DEFAULT_SETTINGS_PATH) := by
  refine ⟨?_, ?_, fun env => rfl, fun env => by simp [resolveSettingsPath]⟩
  · intro env env2
    simp [resolveSettingsPath, hp]
  · intro env
    simp [resolveSettingsPath, hp]

/-- Witness for C10 at a concrete non-empty path and environment. -/
theorem explicit_settings_path_skips_env_witness :
    ¬(("/opt/custom.py" : String) = "") ∧
    resolveSettingsPath (some "/opt/custom.py") (some "/ignored.py") = "/opt/custom.py" :=
  ⟨by decide,
   (explicit_settings_path_skips_env "/opt/custom.py" (by decide)).2.1 (some "/ignored.py")⟩

/-- C4: for every number of threads `n > 0` and every interleaving of `n`
concurrent first-time callers of `Settings.default` starting from the
uninitialized module, once all callers have returned, the `Settings`
constructor has run exactly once and all callers hold the identical single
instance (the one in the slot). -/
theorem concurrent_current_single_instance {n : Nat} {s : Singleton.MState n}
    (hn : 0 < n) (hr : Singleton.Reachable s)
    (hdone : ∀ t : Fin n, ∃ v, s.threads t = Singleton.TState.done v) :
    s.runs = 1 ∧
    ∃ v, s.slot = some v ∧ ∀ t : Fin n, s.threads t = Singleton.TState.done v := by
  have hinv := Singleton.reachable_inv hr
  obtain ⟨v0, hv0⟩ := hdone ⟨0, hn⟩
  have hslot : s.slot = some v0 := hinv.doneSlot _ _ hv0
  have hruns : s.runs = 1 := by
    rcases hinv.runsSlot with ⟨h0, _⟩ | ⟨w, _, h1⟩
    · rw [hslot] at h0; cases h0
    · exact h1
  refine ⟨hruns, v0, hslot, fun t => ?_⟩
  obtain ⟨w, hw⟩ := hdone t
  have h2 := hinv.doneSlot _ _ hw
  rw [hslot] at h2
  injection h2 with h3
  rw [h3]
  exact hw

/-- Witness for C4: the five-step run of a single caller through the slow
path reaches a state where the caller is done, the constructor ran once and
the slot holds the returned instance. -/
theorem concurrent_current_single_instance_witness :
    0 < 1 ∧
    ((Singleton.stepThread (Singleton.stepThread (Singleton.stepThread
        (Singleton.stepThread (Singleton.stepThread (Singleton.initState 1) 0) 0) 0) 0)
        0).runs = 1 ∧
      ∃ v, (Singleton.stepThread (Singleton.stepThread (Singleton.stepThread
          (Singleton.stepThread (Singleton.stepThread (Singleton.initState 1) 0) 0) 0) 0)
          0).slot = some v ∧
        ∀ t : Fin 1, (Singleton.stepThread (Singleton.stepThread (Singleton.stepThread
          (Singleton.stepThread (Singleton.stepThread (Singleton.initState 1) 0) 0) 0) 0)
          0).threads t = Singleton.TState.done v) := by
  refine ⟨by decide, ?_⟩
  refine concurrent_current_single_instance (by decide) ?_ ?_
  · exact Singleton.Reachable.step 0 (Singleton.Reachable.step 0 (Singleton.Reachable.step 0
      (Singleton.Reachable.step 0 (Singleton.Reachable.step 0 Singleton.Reachable.init))))
  · intro t
    refine ⟨0, ?_⟩
    have ht : t = 0 := Subsingleton.elim t 0
    rw [ht]
    rfl

end PynamodbSettings
